import Mathlib

/-!
Shallow embedding of the core of the repository Abdiev003/vibe: the durable
agent loop defined in the Inngest function file (terminal, createOrUpdateFiles
and readFiles tool handlers, the onResponse completion detector, the network
router with its iteration cap, and the result finalizer), together with the
theorems settling the frozen claims about it.

JavaScript conventions used throughout the embedding:
- an object of file contents is an association list from path to content,
  kept key-unique, with in-place key update and append for fresh keys
  (matching property assignment order semantics of JS objects);
- an undefined object field is `none`; the summary field starts as the
  empty string, which is falsy in JS exactly like undefined under every
  use the source makes of it (truthiness tests and whole-string writes);
- a thrown exception is the `Except.error` branch carrying the string form
  of the thrown value;
- template literals are string concatenation.
-/

set_option autoImplicit false

namespace Vibe

/-- JS `String.prototype.includes`: substring containment test. -/
def includes (s pat : String) : Bool := decide (pat.data <:+: s.data)

/-- Substring containment as a proposition: `sub` occurs inside `s`. -/
def containsStr (s sub : String) : Prop := ∃ a b : String, s = a ++ (sub ++ b)

/-- File mapping: association list from path to content, key-unique. -/
abbrev FileMap := List (String × String)

/-- JS object property assignment `m[k] = v`: update in place when the key
exists, append otherwise. -/
def setFile (m : FileMap) (k v : String) : FileMap :=
  if m.any (fun p => p.1 == k) then
    m.map (fun p => if p.1 == k then (k, v) else p)
  else
    m ++ [(k, v)]

/-- The shared agent state of the network: `interface AgentState` from the
source. `summary` starts as the empty string (JS undefined, falsy); `files`
is `none` while the JS field is still undefined. -/
structure AgentState where
  summary : String
  files : Option FileMap
deriving DecidableEq, Repr

/-- One chunk of streamed output of a sandbox command, as delivered to the
`onStdout` / `onStderr` callbacks of the terminal tool. -/
inductive StreamEvent where
  | out (s : String)
  | err (s : String)
deriving DecidableEq, Repr

/-- Contents of `buffers.stdout` after the stream events `evs`. -/
def stdoutBuffer (evs : List StreamEvent) : String :=
  evs.foldl (fun acc e => match e with | .out s => acc ++ s | .err _ => acc) ""

/-- Contents of `buffers.stderr` after the stream events `evs`. -/
def stderrBuffer (evs : List StreamEvent) : String :=
  evs.foldl (fun acc e => match e with | .out _ => acc | .err s => acc ++ s) ""

/-- Result object of a successful `sandbox.commands.run`. -/
structure CommandSuccess where
  stdout : String
  stderr : String
deriving DecidableEq, Repr

/-- Behavior of the sandbox during one terminal tool call: `getSandbox` may
throw, otherwise the command streams some events and then either throws or
returns a result object. -/
inductive SandboxRun where
  | resolveError (e : String)
  | commandError (evs : List StreamEvent) (e : String)
  | success (evs : List StreamEvent) (result : CommandSuccess)
deriving DecidableEq, Repr

/-- The formatted catch-branch message of the terminal tool. -/
def commandFailedMessage (e o s : String) : String :=
  "Command failed: " ++ e ++ " \nstdout: " ++ o ++ " \nstderr: " ++ s

/-- The `terminal` tool handler: runs the command with buffering callbacks;
returns the final stdout of the result object on success, and the formatted
error message (error plus both buffers) when anything inside the try block
throws. Total by construction: the catch converts every failure to a string
value, so nothing is raised past the tool boundary. -/
def terminal : SandboxRun → String
  | .resolveError e => commandFailedMessage e "" ""
  | .commandError evs e => commandFailedMessage e (stdoutBuffer evs) (stderrBuffer evs)
  | .success _ r => r.stdout

/-- The write loop of the `createOrUpdateFiles` step body: for each file,
`await sandbox.files.write(path, content)` then `updatedFiles[path] = content`.
Returns the mapping as mutated so far, paired with the thrown error if a
write failed. A throw happens before the assignment for that file, so the
mapping carries exactly the writes that succeeded. -/
def writeLoop (write : String → String → Except String Unit) :
    List (String × String) → FileMap → FileMap × Option String
  | [], acc => (acc, none)
  | (p, c) :: rest, acc =>
    match write p c with
    | .error e => (acc, some e)
    | .ok _ => writeLoop write rest (setFile acc p c)

/-- The `createOrUpdateFiles` tool handler, with JS reference semantics made
explicit. `resolve` is the `getSandbox` call inside the try block; `write` is
the per-file sandbox write; `stateFiles` is `network.state.data.files` before
the call. Key aliasing fact of the source: `const updatedFiles =
network.state.data.files \x7c\x7c \x7b\x7d` binds the very object stored in the
network state whenever that field is already set (any JS object, even empty,
is truthy), so every `updatedFiles[path] = content` executed before a throw
also mutates the state in place; only when the field was still undefined does
the loop mutate a fresh object. The step result is `.ok` with the final
mapping, or `.error` with the catch-branch string; afterwards the handler
assigns the step result to the state only when it is an object
(`typeof newFiles === "object"`). Returns (state files after the call, step
result). -/
def createOrUpdateFiles (resolve : Except String Unit)
    (write : String → String → Except String Unit)
    (stateFiles : Option FileMap) (files : List (String × String)) :
    Option FileMap × Except String FileMap :=
  match resolve with
  | .error e => (stateFiles, .error ("Error: " ++ e))
  | .ok _ =>
    let base := stateFiles.getD []
    match writeLoop write files base with
    | (finalMap, some e) =>
      ((if stateFiles.isSome then some finalMap else stateFiles),
       .error ("Error: " ++ e))
    | (finalMap, none) => (some finalMap, .ok finalMap)

/-- JSON string escaping of one character, as in `JSON.stringify`. -/
def jsonEscapeChar (c : Char) : String :=
  if c = '"' then "\\\""
  else if c = '\\' then "\\\\"
  else if c = '\n' then "\\n"
  else if c = '\r' then "\\r"
  else if c = '\t' then "\\t"
  else if c = '\x08' then "\\b"
  else if c = '\x0c' then "\\f"
  else if c.toNat < 32 then
    "\\u00" ++ String.mk [Nat.digitChar (c.toNat / 16), Nat.digitChar (c.toNat % 16)]
  else String.singleton c

/-- JSON serialization of a string literal. -/
def jsonString (s : String) : String :=
  "\"" ++ String.join (s.data.map jsonEscapeChar) ++ "\""

/-- JSON serialization of one `\x7bpath, content\x7d` record. -/
def jsonPathContent (p : String × String) : String :=
  "\x7b\"path\":" ++ jsonString p.1 ++ ",\"content\":" ++ jsonString p.2 ++ "\x7d"

/-- `JSON.stringify` of the contents array built by the readFiles tool. -/
def jsonStringify (l : List (String × String)) : String :=
  "[" ++ String.intercalate "," (l.map jsonPathContent) ++ "]"

/-- The read loop of the `readFiles` step body: reads each path in order,
short-circuiting on the first throw. -/
def readLoop (read : String → Except String String) :
    List String → Except String (List (String × String))
  | [] => .ok []
  | f :: rest =>
    match read f with
    | .error e => .error e
    | .ok c => (readLoop read rest).map (fun l => (f, c) :: l)

/-- The `readFiles` tool handler: on success returns the serialized list of
path/content records, on any throw inside the try block returns the
catch-branch error string. -/
def readFiles (resolve : Except String Unit)
    (read : String → Except String String) (files : List String) : String :=
  match resolve with
  | .error e => "Error: " ++ e
  | .ok _ =>
    match readLoop read files with
    | .error e => "Error: " ++ e
    | .ok contents => jsonStringify contents

/-- Kind of one message of a turn result: plain text or a tool call. -/
inductive MsgKind where
  | text
  | toolCall
deriving DecidableEq, Repr

/-- One message of the output of an agent turn. -/
structure Message where
  role : String
  kind : MsgKind
  content : String
deriving DecidableEq, Repr

/-- Modelled from the spec: `lastAssistantTextMessageContent` is imported
from a utils module whose source is not part of this corpus; per the spec it
selects the final assistant-authored text of the turn, ignoring tool-call
content, and is undefined when the turn has no such message. -/
def lastAssistantTextMessageContent (output : List Message) : Option String :=
  match output.reverse.find? (fun m => m.role == "assistant" && m.kind == MsgKind.text) with
  | some m => some m.content
  | none => none

/-- The completion marker token scanned for by the detector. -/
def taskSummaryMarker : String := "<task_summary>"

/-- The `onResponse` lifecycle hook (the Completion Detector): when the final
assistant text of the turn exists and includes the marker, the whole text is
stored as the summary; otherwise the state is untouched. -/
def onResponse (output : List Message) (state : AgentState) : AgentState :=
  match lastAssistantTextMessageContent output with
  | none => state
  | some t =>
    if includes t taskSummaryMarker then { state with summary := t } else state

/-- The single agent of the network. -/
inductive AgentRef where
  | codeAgent
deriving DecidableEq, Repr

/-- The router of the network: stop (return no agent) once the summary is
truthy, otherwise return the code agent. -/
def router (state : AgentState) : Option AgentRef :=
  if state.summary != "" then none else some AgentRef.codeAgent

/-- The iteration cap passed as `maxIter` to `createNetwork`. -/
def maxIter : Nat := 15

/-- One agent turn, abstracted as the net effect of its tool calls on the
files field followed by the output messages fed to the detector. -/
structure Turn where
  toolFiles : Option FileMap → Option FileMap
  output : List Message

/-- Effect of one executed agent turn on the shared state: the tool handlers
mutate the files field during the turn, then `onResponse` runs on the output. -/
def runTurn (t : Turn) (s : AgentState) : AgentState :=
  onResponse t.output { s with files := t.toolFiles s.files }

/-- The state the network starts from: summary and files both undefined. -/
def initialState : AgentState := { summary := "", files := none }

/-- Modelled from the spec: the network loop of `createNetwork` (which lives
in the agent-kit library, not in this corpus) consults the router before each
turn, stops when the router returns no agent or when the number of executed
turns reaches the iteration cap, and otherwise executes the next turn of the
agent behavior. `netRun behavior fuel` is the pair (shared state, turns
executed) after at most `fuel` loop iterations; the loop is stationary once
it has stopped, so any `fuel` at least `maxIter` yields the final outcome. -/
def netRun (behavior : Nat → Turn) : Nat → AgentState × Nat
  | 0 => (initialState, 0)
  | fuel + 1 =>
    let p := netRun behavior fuel
    match router p.1 with
    | none => p
    | some _ =>
      if p.2 < maxIter then (runTurn (behavior p.2) p.1, p.2 + 1) else p

/-- Turn predicate: the final assistant text of the turn, if any, does not
include the completion marker. -/
def turnEmitsNoMarker (t : Turn) : Bool :=
  match lastAssistantTextMessageContent t.output with
  | none => true
  | some txt => !(includes txt taskSummaryMarker)

/-- Modelled from the spec: the Durable Step Executor of the workflow engine
(`step.run` of the inngest runtime, not part of this corpus). Records are
keyed by (run identity, step name); a record stores the captured success or
failure of the first execution and is never mutated afterwards. -/
structure StepStore (α : Type) where
  records : List ((String × String) × Except String α)

/-- Modelled from the spec: `execute(runIdentity, stepName, operation)`. When
a record exists for the key, its result is returned and the operation is not
invoked; otherwise the operation is invoked exactly once and its captured
outcome stored. The third component counts how many times `op` was invoked
by this call. -/
def stepExecute {α : Type} (store : StepStore α) (runId stepName : String)
    (op : Unit → Except String α) :
    Except String α × StepStore α × Nat :=
  match store.records.lookup (runId, stepName) with
  | some r => (r, store, 0)
  | none =>
    let r := op ()
    (r, ⟨store.records ++ [((runId, stepName), r)]⟩, 1)

/-- The success check of the finalizer: `!summary` or no keys in `files`. -/
def isError (state : AgentState) : Bool :=
  state.summary == "" || (state.files.getD []).length == 0

/-- The fragment record created for a successful run. -/
structure Fragment where
  sandboxUrl : String
  files : FileMap
  title : String
deriving DecidableEq, Repr

/-- The message record persisted by the save-result step. -/
structure SavedMessage where
  content : String
  role : String
  msgType : String
  fragment : Option Fragment
deriving DecidableEq, Repr

/-- The save-result step body: persists the generic error record when the
run failed validation, and otherwise the result record carrying the summary
together with a fragment bundling the sandbox URL, the files mapping and the
fixed title. -/
def saveResult (state : AgentState) (sandboxUrl : String) : SavedMessage :=
  if isError state then
    { content := "Something went wrong. Please try again.",
      role := "ASSISTANT", msgType := "ERROR", fragment := none }
  else
    { content := state.summary, role := "ASSISTANT", msgType := "RESULT",
      fragment := some { sandboxUrl := sandboxUrl,
                         files := state.files.getD [], title := "Fragment" } }

/-- The public return value of the function. -/
structure PublicResult where
  url : String
  title : String
  files : Option FileMap
  summary : String
deriving DecidableEq, Repr

/-- The tail of the function body after `network.run`: computes the validity
flag, resolves the sandbox URL as a durable step, persists the result as a
durable step, and returns the public record. The first component lists the
names of the durable steps executed, in order; the control flow is straight
line, so both steps run and the same return record is built whatever the
validity flag is. -/
def functionTail (state : AgentState) (sandboxUrl : String) :
    List String × SavedMessage × PublicResult :=
  let saved := saveResult state sandboxUrl
  (["get-sandbox-url", "save-result"], saved,
   { url := sandboxUrl, title := "Fragment",
     files := state.files, summary := state.summary })

/-- Concrete per-file write behavior used to exhibit the failing batch: the
write of c.txt throws, every other write succeeds. -/
def failingWrite : String → String → Except String Unit := fun p _ =>
  if p == "c.txt" then Except.error "write EACCES" else Except.ok ()

/-- Concrete per-path read behavior used for the readFiles witness: a.txt
reads back alpha, every other path throws. -/
def witnessRead : String → Except String String := fun f =>
  if f == "a.txt" then Except.ok "alpha" else Except.error "ENOENT: missing.txt"

/-- A turn whose final assistant text carries the completion marker. -/
def markerTurn : Turn :=
  { toolFiles := fun fs => fs,
    output := [{ role := "assistant", kind := MsgKind.text,
                 content := "<task_summary>done</task_summary>" }] }

/-- An agent behavior emitting the completion marker at every turn. -/
def markerBehavior : Nat → Turn := fun _ => markerTurn

/-- A turn whose final assistant text does not carry the marker. -/
def plainTurn : Turn :=
  { toolFiles := fun fs => fs,
    output := [{ role := "assistant", kind := MsgKind.text,
                 content := "still working" }] }

/-- An agent behavior that never emits the completion marker. -/
def plainBehavior : Nat → Turn := fun _ => plainTurn

theorem string_append_assoc (a b c : String) : a ++ b ++ c = a ++ (b ++ c) := by
  apply String.ext
  simp

theorem includes_containsStr {s pat : String} (h : includes s pat = true) :
    containsStr s pat := by
  have h2 : pat.data <:+: s.data := of_decide_eq_true h
  rcases h2 with ⟨a, b, hab⟩
  refine ⟨⟨a⟩, ⟨b⟩, ?_⟩
  apply String.ext
  simpa using hab.symm

/-- C6: for every command whose sandbox execution fails, the terminal tool
returns a string value equal to the formatted failure message, which contains
the error together with the buffered stdout and stderr; the handler is a
total function into strings, so no exception crosses the tool boundary (the
last conjunct covers a failing sandbox resolution, where both buffers are
still empty). -/
theorem terminal_error_value_contract (evs : List StreamEvent) (e : String) :
    terminal (SandboxRun.commandError evs e)
      = commandFailedMessage e (stdoutBuffer evs) (stderrBuffer evs) ∧
    containsStr (terminal (SandboxRun.commandError evs e)) e ∧
    containsStr (terminal (SandboxRun.commandError evs e)) (stdoutBuffer evs) ∧
    containsStr (terminal (SandboxRun.commandError evs e)) (stderrBuffer evs) ∧
    terminal (SandboxRun.resolveError e) = commandFailedMessage e "" "" := by
  refine ⟨rfl, ⟨"Command failed: ",
      " \nstdout: " ++ (stdoutBuffer evs ++ (" \nstderr: " ++ stderrBuffer evs)), ?_⟩,
    ⟨"Command failed: " ++ e ++ " \nstdout: ",
      " \nstderr: " ++ stderrBuffer evs, ?_⟩,
    ⟨"Command failed: " ++ e ++ " \nstdout: " ++ stdoutBuffer evs ++ " \nstderr: ",
      "", ?_⟩, rfl⟩ <;>
  simp [terminal, commandFailedMessage, string_append_assoc]

/-- C10: for every command whose sandbox execution succeeds, the terminal
tool returns exactly the stdout of the result object; the streamed events
and the stderr of the result object have no influence on the returned value,
so stderr is captured in the buffer but discarded from the tool result. -/
theorem terminal_success_discards_stderr (evs evs2 : List StreamEvent)
    (out errA errB : String) :
    terminal (SandboxRun.success evs { stdout := out, stderr := errA }) = out ∧
    terminal (SandboxRun.success evs { stdout := out, stderr := errA })
      = terminal (SandboxRun.success evs2 { stdout := out, stderr := errB }) :=
  ⟨rfl, rfl⟩

/-- C1: evaluation of the createOrUpdateFiles handler at a failing batch.
With the state files already set to the single entry a.txt, a batch writing
b.txt (succeeds) then c.txt (throws) returns the error string as the batch
result, yet leaves the state files mapping holding the merged b.txt entry:
the in-place mutation through the aliased object survives the failure, so
the mapping is not left as it was before the call. -/
theorem createOrUpdateFiles_failing_batch_mutates_state :
    createOrUpdateFiles (Except.ok ()) failingWrite
        (some [("a.txt", "1")]) [("b.txt", "2"), ("c.txt", "3")]
      = (some [("a.txt", "1"), ("b.txt", "2")], Except.error "Error: write EACCES") ∧
    (some [("a.txt", "1"), ("b.txt", "2")] : Option FileMap) ≠ some [("a.txt", "1")] := by
  refine ⟨?_, by decide⟩
  rfl

/-- C5: the finalizer validates success as non-empty summary and non-empty
files; on success it persists the summary text with a fragment bundling the
sandbox URL, the complete files mapping and the fixed title, and on failure
it persists the generic error record with role ASSISTANT, type ERROR, the
fixed user-facing message and no fragment. -/
theorem saveResult_validation (state : AgentState) (url : String) :
    (state.summary ≠ "" → state.files.getD [] ≠ [] →
      saveResult state url =
        { content := state.summary, role := "ASSISTANT", msgType := "RESULT",
          fragment := some { sandboxUrl := url, files := state.files.getD [],
                             title := "Fragment" } }) ∧
    ((state.summary = "" ∨ state.files.getD [] = []) →
      saveResult state url =
        { content := "Something went wrong. Please try again.",
          role := "ASSISTANT", msgType := "ERROR", fragment := none }) := by
  constructor
  · intro hs hf
    have he : isError state = false := by
      simp [isError, hs, List.length_eq_zero, hf]
    simp [saveResult, he]
  · intro h
    have he : isError state = true := by
      rcases h with h | h <;> simp [isError, h, List.length_eq_zero]
    simp [saveResult, he]

/-- Witness for C5 at the concrete states of the spec example: a completed
state yields the success record with exactly those fields, while the initial
state yields the generic error record. -/
theorem saveResult_validation_witness :
    saveResult { summary := "<task_summary>done</task_summary>",
                 files := some [("app/page.tsx", "export default page")] } "https://host"
      = { content := "<task_summary>done</task_summary>", role := "ASSISTANT",
          msgType := "RESULT",
          fragment := some { sandboxUrl := "https://host",
                             files := [("app/page.tsx", "export default page")],
                             title := "Fragment" } } ∧
    saveResult initialState "https://host"
      = { content := "Something went wrong. Please try again.",
          role := "ASSISTANT", msgType := "ERROR", fragment := none } :=
  ⟨(saveResult_validation
      { summary := "<task_summary>done</task_summary>",
        files := some [("app/page.tsx", "export default page")] } "https://host").1
      (by decide) (by decide),
   (saveResult_validation initialState "https://host").2 (Or.inl rfl)⟩

/-- C9: the tail of the function is straight line: even when validation
fails, the get-sandbox-url durable step is executed, and the public return
record is built from url, the fixed title, the files mapping and the summary
exactly as on success — the last conjunct shows the construction is the same
function of the state whether or not it is an error state. -/
theorem functionTail_uniform_shape (state : AgentState) (url : String)
    (h : isError state = true) :
    "get-sandbox-url" ∈ (functionTail state url).1 ∧
    (functionTail state url).2.2 =
      { url := url, title := "Fragment",
        files := state.files, summary := state.summary } ∧
    ∀ s2 : AgentState, (functionTail s2 url).2.2 =
      { url := url, title := "Fragment", files := s2.files, summary := s2.summary } := by
  refine ⟨?_, rfl, fun s2 => rfl⟩
  simp [functionTail]

/-- Witness for C9 at the initial state, which fails validation. -/
theorem functionTail_uniform_shape_witness :
    isError initialState = true ∧
    "get-sandbox-url" ∈ (functionTail initialState "https://u").1 ∧
    (functionTail initialState "https://u").2.2 =
      { url := "https://u", title := "Fragment", files := none, summary := "" } :=
  ⟨by decide,
   (functionTail_uniform_shape initialState "https://u" (by decide)).1,
   (functionTail_uniform_shape initialState "https://u" (by decide)).2.1⟩

theorem lookup_append_not_found {α β : Type} [BEq α] [LawfulBEq α]
    (l : List (α × β)) (k : α) (v : β) (h : l.lookup k = none) :
    (l ++ [(k, v)]).lookup k = some v := by
  induction l with
  | nil => simp [List.lookup]
  | cons p t ih =>
    rcases p with ⟨a, b⟩
    by_cases hk : (k == a) = true
    · simp only [List.lookup, hk] at h
      cases h
    · have hk2 : (k == a) = false := by simpa using hk
      simp only [List.cons_append, List.lookup, hk2] at h ⊢
      exact ih h

/-- C4: durable step execution is at-most-once per (run identity, step
name): one call invokes the operation at most once, and a second call with
the same key — with any operation, even a different one — returns the first
call result, leaves the store unchanged, and performs zero invocations of
the underlying operation; so the side effects of a completed step are never
re-executed on replay. -/
theorem stepExecute_at_most_once {α : Type} (store : StepStore α)
    (runId stepName : String) (op op2 : Unit → Except String α) :
    (stepExecute store runId stepName op).2.2 ≤ 1 ∧
    stepExecute (stepExecute store runId stepName op).2.1 runId stepName op2
      = ((stepExecute store runId stepName op).1,
         (stepExecute store runId stepName op).2.1, 0) := by
  cases h : store.records.lookup (runId, stepName) with
  | some r => simp [stepExecute, h]
  | none =>
    refine ⟨?_, ?_⟩
    · simp [stepExecute, h]
    · simp only [stepExecute, h]
      rw [lookup_append_not_found _ _ _ h]

theorem readLoop_all_ok (read : String → Except String String)
    (content : String → String) :
    ∀ files : List String, (∀ f, f ∈ files → read f = Except.ok (content f)) →
      readLoop read files = Except.ok (files.map (fun f => (f, content f))) := by
  intro files
  induction files with
  | nil => intro _; rfl
  | cons f rest ih =>
    intro hall
    have hf : read f = Except.ok (content f) := hall f (by simp)
    have hrest := ih (fun g hg => hall g (by simp [hg]))
    simp [readLoop, hf, hrest, Except.map]

theorem readLoop_first_error (read : String → Except String String) :
    ∀ (pre : List String) (bad : String) (rest : List String) (e : String),
      (∀ f, f ∈ pre → ∃ c, read f = Except.ok c) →
      read bad = Except.error e →
      readLoop read (pre ++ bad :: rest) = Except.error e := by
  intro pre
  induction pre with
  | nil =>
    intro bad rest e _ hbad
    simp [readLoop, hbad]
  | cons f t ih =>
    intro bad rest e hpre hbad
    obtain ⟨c, hc⟩ := hpre f (by simp)
    have hrec := ih bad rest e (fun g hg => hpre g (by simp [hg])) hbad
    simp [readLoop, hc, hrec, Except.map]

/-- C7: read-batch atomicity of the readFiles tool. When every read
succeeds, the call returns the serialized JSON list of path/content records;
when some read fails, the whole call returns the single error string of the
first failing read, so no partial list is ever returned. -/
theorem readFiles_batch (read : String → Except String String)
    (files : List String) (content : String → String) :
    ((∀ f, f ∈ files → read f = Except.ok (content f)) →
      readFiles (Except.ok ()) read files
        = jsonStringify (files.map (fun f => (f, content f)))) ∧
    (∀ (pre : List String) (bad : String) (rest : List String) (e : String),
      files = pre ++ bad :: rest →
      (∀ f, f ∈ pre → ∃ c, read f = Except.ok c) →
      read bad = Except.error e →
      readFiles (Except.ok ()) read files = "Error: " ++ e) := by
  constructor
  · intro hall
    simp [readFiles, readLoop_all_ok read content files hall]
  · intro pre bad rest e hsplit hpre hbad
    subst hsplit
    simp [readFiles, readLoop_first_error read pre bad rest e hpre hbad]

/-- Witness for C7 at the concrete batch of the spec example: the batch
with a failing second path collapses to the single error string, and the
all-success batch returns the serialized list. -/
theorem readFiles_batch_witness :
    readFiles (Except.ok ()) witnessRead ["a.txt", "missing.txt"]
      = "Error: ENOENT: missing.txt" ∧
    readFiles (Except.ok ()) witnessRead ["a.txt"]
      = jsonStringify [("a.txt", "alpha")] :=
  ⟨(readFiles_batch witnessRead ["a.txt", "missing.txt"] (fun _ => "alpha")).2
      ["a.txt"] "missing.txt" [] "ENOENT: missing.txt" rfl
      (by
        intro f hf
        rcases List.mem_singleton.mp hf with rfl
        exact ⟨"alpha", rfl⟩)
      rfl,
   (readFiles_batch witnessRead ["a.txt"] (fun _ => "alpha")).1
      (by
        intro f hf
        rcases List.mem_singleton.mp hf with rfl
        rfl)⟩

/-- C8: the Completion Detector reads only the final assistant-authored text
of the turn: when that text exists and includes the marker, the summary is
set verbatim to the whole text (hence contains the marker itself) and the
files field is untouched; and any two turn outputs with the same final
assistant text produce identical state updates, so tool-call content never
influences the detector. -/
theorem onResponse_marker_detection (output : List Message) (state : AgentState)
    (t : String) (hlast : lastAssistantTextMessageContent output = some t)
    (hmark : includes t taskSummaryMarker = true) :
    (onResponse output state).summary = t ∧
    containsStr (onResponse output state).summary taskSummaryMarker ∧
    (onResponse output state).files = state.files ∧
    ∀ output2 state2,
      lastAssistantTextMessageContent output2 = lastAssistantTextMessageContent output →
      onResponse output2 state2 = onResponse output state2 := by
  refine ⟨?_, ?_, ?_, ?_⟩
  · simp [onResponse, hlast, hmark]
  · have hs : (onResponse output state).summary = t := by
      simp [onResponse, hlast, hmark]
    rw [hs]
    exact includes_containsStr hmark
  · simp [onResponse, hlast, hmark]
  · intro output2 state2 heq
    unfold onResponse
    rw [heq]

/-- Witness for C8 at a concrete turn whose output carries a tool call and
then a marker-bearing assistant text. -/
theorem onResponse_marker_detection_witness :
    lastAssistantTextMessageContent
        [{ role := "assistant", kind := MsgKind.toolCall, content := "terminal npm i" },
         { role := "assistant", kind := MsgKind.text,
           content := "<task_summary>built the page</task_summary>" }]
      = some "<task_summary>built the page</task_summary>" ∧
    (onResponse
        [{ role := "assistant", kind := MsgKind.toolCall, content := "terminal npm i" },
         { role := "assistant", kind := MsgKind.text,
           content := "<task_summary>built the page</task_summary>" }]
        initialState).summary
      = "<task_summary>built the page</task_summary>" :=
  ⟨rfl,
   (onResponse_marker_detection
      [{ role := "assistant", kind := MsgKind.toolCall, content := "terminal npm i" },
       { role := "assistant", kind := MsgKind.text,
         content := "<task_summary>built the page</task_summary>" }]
      initialState "<task_summary>built the page</task_summary>" rfl (by decide)).1⟩

/-- C2: the one-shot latch at the level of full network executions: for any
agent behavior, once the summary of the network state is non-empty after some
number of loop iterations, the whole execution (shared state and executed
turn count) is frozen from that point on, so no subsequent Completion
Detector invocation happens, let alone changes it — whatever later turns
would have contained. -/
theorem summary_one_shot (behavior : Nat → Turn) (j k : Nat) (hjk : j ≤ k)
    (hj : (netRun behavior j).1.summary ≠ "") :
    netRun behavior k = netRun behavior j := by
  induction k with
  | zero =>
    have hj0 : j = 0 := Nat.le_zero.mp hjk
    rw [hj0]
  | succ k ih =>
    rcases Nat.eq_or_lt_of_le hjk with heq | hlt
    · rw [heq]
    · have hk : j ≤ k := Nat.lt_succ_iff.mp hlt
      have hfreeze := ih hk
      have hrj : router (netRun behavior j).1 = none := by
        simp [router, hj]
      simp [netRun, hfreeze, hrj]

/-- Witness for C2: with a behavior that keeps emitting marker turns, the
summary is non-empty after one iteration and the execution is identical
after fifteen. -/
theorem summary_one_shot_witness :
    (netRun markerBehavior 1).1.summary ≠ "" ∧
    netRun markerBehavior 15 = netRun markerBehavior 1 :=
  ⟨by decide, summary_one_shot markerBehavior 1 15 (by decide) (by decide)⟩

theorem runTurn_summary_of_noMarker (t : Turn) (s : AgentState)
    (h : turnEmitsNoMarker t = true) : (runTurn t s).summary = s.summary := by
  unfold turnEmitsNoMarker at h
  unfold runTurn onResponse
  cases hl : lastAssistantTextMessageContent t.output with
  | none => simp
  | some txt =>
    rw [hl] at h
    simp only [Bool.not_eq_true'] at h
    simp [h]

/-- C3: bounded loop. For any agent behavior that never emits the completion
marker, the summary stays empty through every iteration, the router keeps
returning the single configured code agent, and the number of executed turns
is capped at exactly maxIter = 15: every iteration up to the cap runs a turn
and no iteration beyond it does. The stop is a normal final state whose only
distinguishing feature is the unset summary. -/
theorem network_bounded (behavior : Nat → Turn)
    (h : ∀ n, turnEmitsNoMarker (behavior n) = true) (fuel : Nat) :
    (netRun behavior fuel).1.summary = "" ∧
    router (netRun behavior fuel).1 = some AgentRef.codeAgent ∧
    (netRun behavior fuel).2 = min fuel maxIter := by
  induction fuel with
  | zero => exact ⟨rfl, rfl, rfl⟩
  | succ fuel ih =>
    obtain ⟨hs, hr, hc⟩ := ih
    by_cases hlt : (netRun behavior fuel).2 < maxIter
    · have hstep : netRun behavior (fuel + 1)
          = (runTurn (behavior (netRun behavior fuel).2) (netRun behavior fuel).1,
             (netRun behavior fuel).2 + 1) := by
        simp [netRun, hr, hlt]
      have hs2 : (netRun behavior (fuel + 1)).1.summary = "" := by
        rw [hstep]
        exact (runTurn_summary_of_noMarker _ _ (h _)).trans hs
      refine ⟨hs2, ?_, ?_⟩
      · simp [router, hs2]
      · rw [hstep]
        simp only [hc] at hlt ⊢
        omega
    · have hstop : netRun behavior (fuel + 1) = netRun behavior fuel := by
        simp [netRun, hr, hlt]
      refine ⟨hstop ▸ hs, hstop ▸ hr, ?_⟩
      rw [hstop, hc]
      simp only [hc] at hlt
      omega

/-- Witness for C3: the markerless behavior runs exactly 15 turns out of 20
available loop iterations, ending with an empty summary. -/
theorem network_bounded_witness :
    (netRun plainBehavior 20).2 = min 20 maxIter ∧
    (netRun plainBehavior 20).1.summary = "" ∧
    router (netRun plainBehavior 20).1 = some AgentRef.codeAgent := by
  have hno : ∀ n, turnEmitsNoMarker (plainBehavior n) = true :=
    fun _ => show turnEmitsNoMarker plainTurn = true by decide
  have hmain := network_bounded plainBehavior hno 20
  exact ⟨hmain.2.2, hmain.1, hmain.2.1⟩

end Vibe
